import Mathlib

/-!
Verification of the Avida 5 virtual machine (src/source/Hardware/AvidaVM.hpp,
VMStack.hpp, InstSet.hpp and src/source/Genome.hpp) as a shallow embedding.

Machine integers are embedded as follows:
* `data_t = int` (32-bit twos complement) becomes `Int`, with an explicit
  `wrap32` applied wherever the C++ arithmetic can overflow;
* `size_t` (64-bit unsigned) becomes `Nat`, with explicit `% 2^64` folds at
  the places where the C++ code relies on unsigned wraparound (the stack
  pointer decrement, `IP() -= 2` in Inst_Continue, the int-to-size_t
  conversions in Inst_SetHead / Inst_OffsetHead).

The genome (`StateGenome<256>` in Genome.hpp, a vector of bytes) is a
`List Nat`; memory (`emp::array<int, 64>`) is a `List Int`; the six heads
(`emp::array<size_t, 6>`) are a `List Nat`; the six stacks are a `List VMStack`.
-/

namespace Avida

/-- Twos-complement wrap of an integer into the 32-bit signed range, the
effect of storing an arbitrary integer result in `data_t = int`. -/
def wrap32 (x : Int) : Int := ((x + 2 ^ 31).emod (2 ^ 32)) - 2 ^ 31

/-- Conversion of a `size_t` value to `data_t` (C++ narrowing: value modulo
2^32, reinterpreted as twos complement). -/
def toInt32 (n : Nat) : Int := wrap32 (n : Int)

/-- Conversion of a `data_t` value to `size_t` (C++ conversion: value modulo
2^64, non-negative). -/
def toSize64 (x : Int) : Nat := (x.emod (2 ^ 64)).toNat

/-- Adding a signed `data_t` offset to a `size_t` value (used by
`head += GetStackArg(Nop::A).Pop()` in Inst_OffsetHead): the int is converted
to size_t and the addition wraps modulo 2^64. -/
def addSize64 (a : Nat) (x : Int) : Nat := (((a : Int) + x).emod (2 ^ 64)).toNat

/-- The unsigned 32-bit image of a `data_t` value, used to model the bitwise
instructions (Nand, Xor) on twos-complement representations. -/
def toUnsigned32 (x : Int) : Nat := (x.emod (2 ^ 32)).toNat

/-- Bitwise `~(X & Y)` on 32-bit twos-complement values (Inst_Nand). -/
def int32Nand (x y : Int) : Int :=
  wrap32 ((((toUnsigned32 x &&& toUnsigned32 y) ^^^ (2 ^ 32 - 1) : Nat)) : Int)

/-- Bitwise `X ^ Y` on 32-bit twos-complement values (Inst_Xor). -/
def int32Xor (x y : Int) : Int :=
  wrap32 (((toUnsigned32 x ^^^ toUnsigned32 y : Nat)) : Int)

/-- emp::Mod, the Euclidean (non-negative) modulus `((a % b) + b) % b` from
the external Empirical library; for the positive modulus 32 used by
Inst_Shift this agrees with `Int.emod`. -/
def empMod (a b : Int) : Int := ((a.tmod b) + b).tmod b

/-- emp::Pow from the external Empirical library (not part of this
repository); the spec calls it the integer power `X ** Y`.  Modelled as the
wrapped power for non-negative exponents and 0 for negative ones; none of
the claims depends on the pushed value. -/
def empPow (x y : Int) : Int := if y < 0 then 0 else wrap32 (x ^ y.toNat)

/-- VMStack<int, 16> from VMStack.hpp: 16 slots and a cursor. -/
structure VMStack where
  stack : List Int
  stackPos : Nat
deriving DecidableEq

/-- A freshly Reset stack: all 16 slots zero, cursor at 0. -/
def stackReset : VMStack := ⟨List.replicate 16 0, 0⟩

/-- VMStack::Push: write at the cursor, advance the cursor modulo 16. -/
def VMStack.push (st : VMStack) (v : Int) : VMStack :=
  ⟨st.stack.set st.stackPos v, (st.stackPos + 1) % 16⟩

/-- The slot index read by VMStack::Pop: `--stack_pos` with the size_t
underflow at 0 folded back to 15 by the `if (stack_pos > STACK_DEPTH)` test. -/
def VMStack.popIdx (st : VMStack) : Nat := if st.stackPos = 0 then 15 else st.stackPos - 1

/-- VMStack::Pop: move the cursor back (wrapping 0 to 15) and return the slot. -/
def VMStack.pop (st : VMStack) : Int × VMStack :=
  (st.stack.getD st.popIdx 0, ⟨st.stack, st.popIdx⟩)

/-- VMStack::Top: read the slot just below the cursor, wrapping. -/
def VMStack.top (st : VMStack) : Int :=
  st.stack.getD (if st.stackPos = 0 then 15 else st.stackPos - 1) 0

/-- The AvidaVM hardware state: genome, offspring buffer, memory, the six
heads (index 0 = IP, 1 = G_READ, 2 = G_WRITE, 3 = M_READ, 4 = M_WRITE,
5 = FLOW), the six stacks, and the error counter. -/
structure VMState where
  genome : List Nat
  offspring : List Nat
  memory : List Int
  heads : List Nat
  stackArr : List VMStack
  errorCount : Nat
deriving DecidableEq

/-- AvidaVM::ReadGenome on a plain byte list: in-range read or 0. -/
def readGen (g : List Nat) (pos : Nat) : Nat :=
  if pos < g.length then g.getD pos 0 else 0

/-- AvidaVM::ReadGenome. -/
def VMState.readGenome (s : VMState) (pos : Nat) : Nat := readGen s.genome pos

/-- AvidaVM::ReadMemory: in-range read or 0. -/
def VMState.readMemory (s : VMState) (pos : Nat) : Int :=
  if pos < s.memory.length then s.memory.getD pos 0 else 0

/-- AvidaVM::WriteGenome: always an insertion, a push when at or past the end. -/
def VMState.writeGenome (s : VMState) (pos : Nat) (id : Nat) : VMState :=
  if pos < s.genome.length then { s with genome := s.genome.insertIdx pos id }
  else { s with genome := s.genome ++ [id] }

/-- AvidaVM::WriteMemory: in-range write, or an error count bump. -/
def VMState.writeMemory (s : VMState) (pos : Nat) (v : Int) : VMState :=
  if pos < s.memory.length then { s with memory := s.memory.set pos v }
  else { s with errorCount := s.errorCount + 1 }

/-- AvidaVM::IP, the position of head 0. -/
def VMState.ip (s : VMState) : Nat := s.heads.getD 0 0

/-- The position of head `i` (reading `heads[i]`). -/
def VMState.headPos (s : VMState) (i : Nat) : Nat := s.heads.getD i 0

/-- Writing head `i` (assigning through the `size_t &` reference). -/
def VMState.setHead (s : VMState) (i v : Nat) : VMState :=
  { s with heads := s.heads.set i v }

/-- Assignment to IP. -/
def VMState.setIP (s : VMState) (v : Nat) : VMState := s.setHead 0 v

/-- AvidaVM::AdvanceIP. -/
def VMState.advanceIP (s : VMState) : VMState := s.setIP (s.ip + 1)

/-- AvidaVM::ReadIP. -/
def VMState.readIP (s : VMState) : Nat := s.readGenome s.ip

/-- AvidaVM::GetArg: read the byte at IP; a nop id (< NUM_NOPS = 6) is
consumed (IP advances) and returned, anything else leaves the state alone
and yields the default.  Note that a read past the end of the genome
returns 0 = Nop-A, which counts as a nop and still advances IP. -/
def VMState.getArg (s : VMState) (d : Nat) : Nat × VMState :=
  if s.readIP < 6 then (s.readIP, s.advanceIP) else (d, s)

/-- Popping stack `i` (stacks[i].Pop()). -/
def VMState.popStack (s : VMState) (i : Nat) : Int × VMState :=
  let r := (s.stackArr.getD i stackReset).pop
  (r.1, { s with stackArr := s.stackArr.set i r.2 })

/-- Pushing onto stack `i` (stacks[i].Push(v)). -/
def VMState.pushStack (s : VMState) (i : Nat) (v : Int) : VMState :=
  { s with stackArr := s.stackArr.set i ((s.stackArr.getD i stackReset).push v) }

/-- Reading the top of stack `i` (stacks[i].Top()). -/
def VMState.topStack (s : VMState) (i : Nat) : Int :=
  (s.stackArr.getD i stackReset).top

/-- Incrementing the error counter (`++error_count`). -/
def VMState.addError (s : VMState) : VMState :=
  { s with errorCount := s.errorCount + 1 }

/-- The AvidaVM constant table const_vals. -/
def constVals : List Int := [1, 2, 4, 16, 256, -1]

/-- The id of the Scope instruction in the canonical instruction set built by
AvidaVM::BuildInstSet (AtScopeLimit caches `inst_set.GetID("Scope")`). -/
def scopeId : Nat := 23

/-- AvidaVM::SkipNops as a pure function on the scan position: advance while
the position is in range and holds a nop. -/
def skipNopsPos (g : List Nat) (p : Nat) : Nat :=
  if p < g.length ∧ g.getD p 0 < 6 then skipNopsPos g (p + 1) else p
termination_by g.length - p
decreasing_by omega

/-- AvidaVM::HasArg scan: from position `p`, walk the run of nops and report
whether one of them equals `arg`. -/
def hasArgFrom (g : List Nat) (arg : Nat) (p : Nat) : Bool :=
  if p < g.length ∧ g.getD p 0 < 6 then
    if g.getD p 0 = arg then true else hasArgFrom g arg (p + 1)
  else false
termination_by g.length - p
decreasing_by omega

/-- AvidaVM::AtScopeLimit at scan position `p`: the byte is the Scope opcode
and the nop run that follows it contains the target. -/
def atScope (g : List Nat) (target : Nat) (p : Nat) : Bool :=
  readGen g p = scopeId && hasArgFrom g target (p + 1)

/-- The forward scan loop of Inst_Break: advance until a matching Scope is
found (then SkipNops from that position, a no-op since the position holds the
Scope opcode itself) or until the position reaches the end of the genome. -/
def breakScan (g : List Nat) (target : Nat) (p : Nat) : Nat :=
  if p < g.length then
    if atScope g target p then skipNopsPos g p else breakScan g target (p + 1)
  else p
termination_by g.length - p
decreasing_by omega

/-- The backward scan loop of Inst_Continue: on a matching Scope, advance past
it and its nops; on reaching position 0 without a match, the `--IP()` wraps
the size_t position to 2^64 - 1, the loop guard fails and IP is set to 0
(faithful for any genome shorter than 2^64 - 1 bytes, which `size_t`
indexing forces in the source). -/
def continueScan (g : List Nat) (target : Nat) (p : Nat) : Nat :=
  if p < g.length then
    if atScope g target p then skipNopsPos g (p + 1)
    else if p = 0 then 0 else continueScan g target (p - 1)
  else 0
termination_by p

/-- The `IP() -= 2` of Inst_Continue: size_t subtraction wrapping at 2^64. -/
def sub2w (ip : Nat) : Nat := (ip + (2 ^ 64 - 2)) % 2 ^ 64

/-- Inst_Nop: no operation. -/
def inst_Nop (s : VMState) : VMState := s

/-- Inst_Const: push const_vals[GetArg(Nop-A)] onto stack GetArg(Nop-A). -/
def inst_Const (s : VMState) : VMState :=
  let (a, s1) := s.getArg 0
  let value := constVals.getD a 0
  let (i, s2) := s1.getArg 0
  s2.pushStack i value

/-- Inst_Offset: push const_vals[GetArg(Nop-A)] + Pop[GetArg(Nop-A)]. -/
def inst_Offset (s : VMState) : VMState :=
  let (a, s1) := s.getArg 0
  let x := constVals.getD a 0
  let (yid, s2) := s1.getArg 0
  let (y, s3) := s2.popStack yid
  let (zid, s4) := s3.getArg yid
  s4.pushStack zid (wrap32 (x + y))

/-- Inst_Not: pop X, push !X (1 when X = 0, else 0). -/
def inst_Not (s : VMState) : VMState :=
  let (xid, s1) := s.getArg 0
  let (x, s2) := s1.popStack xid
  let (zid, s3) := s2.getArg xid
  s3.pushStack zid (if x = 0 then 1 else 0)

/-- The shared shape of the binary arithmetic / logic handlers
(Inst_Shift, Inst_Add, ..., Inst_Xor in the source are textually identical up
to the pushed expression): X_id = GetArg(Nop-A); X = stacks[X_id].Pop();
Y = GetStackArg(X_id).Pop(); GetStackArg(X_id).Push(f X Y). -/
def arith2 (f : Int → Int → Int) (s : VMState) : VMState :=
  let (xid, s1) := s.getArg 0
  let (x, s2) := s1.popStack xid
  let (yid, s3) := s2.getArg xid
  let (y, s4) := s3.popStack yid
  let (zid, s5) := s4.getArg xid
  s5.pushStack zid (f x y)

/-- Inst_Shift: push X << Mod(Y, 32). -/
def inst_Shift : VMState → VMState :=
  arith2 (fun x y => wrap32 (x * 2 ^ (empMod y 32).toNat))

/-- Inst_Add. -/
def inst_Add : VMState → VMState := arith2 (fun x y => wrap32 (x + y))

/-- Inst_Sub. -/
def inst_Sub : VMState → VMState := arith2 (fun x y => wrap32 (x - y))

/-- Inst_Mult. -/
def inst_Mult : VMState → VMState := arith2 (fun x y => wrap32 (x * y))

/-- The shared argument decode and pops of Inst_Div and Inst_Mod: the two
handlers are textually identical up to the pushed expression and agree on
this prefix.  Returns (X_id, X, Y, state after both pops). -/
def divmodDecode (s : VMState) : Nat × Int × Int × VMState :=
  let (xid, s1) := s.getArg 0
  let (x, s2) := s1.popStack xid
  let (yid, s3) := s2.getArg xid
  let (y, s4) := s3.popStack yid
  (xid, x, y, s4)

/-- The tail shared by Inst_Div and Inst_Mod: on Y = 0 bump the error
counter (no repush, no push); otherwise decode the target stack
(`GetStackArg(X_id)`, written here with the two projections of the single
pure `getArg` call) and push the wrapped result of `op X Y`. -/
def divmodFinish (op : Int → Int → Int) (xid : Nat) (x y : Int) (s4 : VMState) : VMState :=
  if y = 0 then s4.addError
  else (s4.getArg xid).2.pushStack (s4.getArg xid).1 (wrap32 (op x y))

/-- Inst_Div: C++ division truncates toward zero. -/
def inst_Div (s : VMState) : VMState :=
  match divmodDecode s with
  | (xid, x, y, s4) => divmodFinish Int.tdiv xid x y s4

/-- Inst_Mod: the C++ remainder takes the sign of the dividend. -/
def inst_Mod (s : VMState) : VMState :=
  match divmodDecode s with
  | (xid, x, y, s4) => divmodFinish Int.tmod xid x y s4

/-- Inst_Exp: push emp::Pow(X, Y). -/
def inst_Exp : VMState → VMState := arith2 empPow

/-- Inst_Sort: decode X_id and Y_id, pop X and Y, order them, and push the
larger and smaller with two further decodes defaulting to X_id and Y_id. -/
def inst_Sort (s : VMState) : VMState :=
  let (xid, s1) := s.getArg 0
  let (yid, s2) := s1.getArg xid
  let (x, s3) := s2.popStack xid
  let (y, s4) := s3.popStack yid
  let p := if x < y then (y, x) else (x, y)
  let (z1, s5) := s4.getArg xid
  let s6 := s5.pushStack z1 p.1
  let (z2, s7) := s6.getArg yid
  s7.pushStack z2 p.2

/-- Inst_TestLess: push 1 when X < Y, else 0. -/
def inst_TestLess : VMState → VMState :=
  arith2 (fun x y => if x < y then 1 else 0)

/-- Inst_TestEqu: push 1 when X = Y, else 0. -/
def inst_TestEqu : VMState → VMState :=
  arith2 (fun x y => if x = y then 1 else 0)

/-- Inst_Nand: push bitwise ~(X & Y). -/
def inst_Nand : VMState → VMState := arith2 int32Nand

/-- Inst_Xor: push bitwise X ^ Y. -/
def inst_Xor : VMState → VMState := arith2 int32Xor

/-- Inst_If: pop X from stack GetArg(Nop-A); when X = 0 skip one byte. -/
def inst_If (s : VMState) : VMState :=
  let (i, s1) := s.getArg 0
  let (x, s2) := s1.popStack i
  if x = 0 then s2.advanceIP else s2

/-- Inst_IfNot: pop X; when X is nonzero skip one byte. -/
def inst_IfNot (s : VMState) : VMState :=
  let (i, s1) := s.getArg 0
  let (x, s2) := s1.popStack i
  if x = 0 then s2 else s2.advanceIP

/-- Inst_Scope: consume the nops that follow and nothing else. -/
def inst_Scope (s : VMState) : VMState :=
  s.setIP (skipNopsPos s.genome s.ip)

/-- Inst_Continue: decode the target, step IP back by 2 (size_t wrap), and
scan backwards for the beginning of the target scope. -/
def inst_Continue (s : VMState) : VMState :=
  let (target, s1) := s.getArg 0
  s1.setIP (continueScan s1.genome target (sub2w s1.ip))

/-- Inst_Break: decode the target and scan forwards for the end of the
target scope. -/
def inst_Break (s : VMState) : VMState :=
  let (target, s1) := s.getArg 0
  s1.setIP (breakScan s1.genome target s1.ip)

/-- Inst_StackPop: discard the top of stack GetArg(Nop-A). -/
def inst_StackPop (s : VMState) : VMState :=
  let (i, s1) := s.getArg 0
  (s1.popStack i).2

/-- Inst_StackDup: read (without popping) the top of stack GetArg(Nop-A) and
push a copy onto stack GetArg(stack1_id). -/
def inst_StackDup (s : VMState) : VMState :=
  let (i, s1) := s.getArg 0
  let v := s1.topStack i
  let (j, s2) := s1.getArg i
  s2.pushStack j v

/-- Inst_StackSwap: pop X and Y from two decoded stacks, then push X and Y
through two further decodes defaulting to the opposite source ids. -/
def inst_StackSwap (s : VMState) : VMState :=
  let (i, s1) := s.getArg 0
  let (j, s2) := s1.getArg i
  let (x, s3) := s2.popStack i
  let (y, s4) := s3.popStack j
  let (a, s5) := s4.getArg j
  let s6 := s5.pushStack a x
  let (b, s7) := s6.getArg i
  s7.pushStack b y

/-- Inst_StackMove: pop stack GetArg(Nop-A) and push onto stack
GetArg((stack1_id + 1) mod 6), unless the two stacks coincide. -/
def inst_StackMove (s : VMState) : VMState :=
  let (i, s1) := s.getArg 0
  let (j, s2) := s1.getArg ((i + 1) % 6)
  if i = j then s2
  else
    let (v, s3) := s2.popStack i
    s3.pushStack j v

/-- Inst_CopyInst: read the genome at head GetHeadArg(G_READ), insert the
byte at head GetHeadArg(G_WRITE), and advance both heads (both reads and
both increments go through the heads array, so aliased selections behave as
the C++ references do). -/
def inst_CopyInst (s : VMState) : VMState :=
  let (ir, s1) := s.getArg 1
  let (iw, s2) := s1.getArg 2
  let v := s2.readGenome (s2.headPos ir)
  let s3 := s2.writeGenome (s2.headPos iw) v
  let s4 := s3.setHead ir (s3.headPos ir + 1)
  s4.setHead iw (s4.headPos iw + 1)

/-- Inst_Load: push ReadMemory(head GetHeadArg(M_READ)) onto stack
GetArg(Nop-A) and advance the head (C++17 sequences the GetStackArg decode
before the ReadMemory argument evaluation). -/
def inst_Load (s : VMState) : VMState :=
  let (ih, s1) := s.getArg 3
  let (ist, s2) := s1.getArg 0
  let v := s2.readMemory (s2.headPos ih)
  let s3 := s2.pushStack ist v
  s3.setHead ih (s3.headPos ih + 1)

/-- Inst_Store: pop stack GetArg(Nop-A), write the value at head
GetHeadArg(M_WRITE) (out of range bumps the error counter), advance the head. -/
def inst_Store (s : VMState) : VMState :=
  let (ist, s1) := s.getArg 0
  let (v, s2) := s1.popStack ist
  let (ih, s3) := s2.getArg 4
  let s4 := s3.writeMemory (s3.headPos ih) v
  s4.setHead ih (s4.headPos ih + 1)

/-- The swap-if-reversed and clamp steps of Inst_DivideCell, operating on
the selected head indices `i1` (the read choice, `head1` in the source) and
`i2` (the write choice, `head2`): swap the two head slots when reversed,
then clamp the second to the genome length.  All reads and writes go
through the heads array, mirroring the `size_t &` references of the source
(including aliasing when i1 = i2). -/
def divideSwapClamp (i1 i2 : Nat) (s : VMState) : VMState :=
  let a := s.headPos i1
  let b := s.headPos i2
  let s1 := if b < a then (s.setHead i1 b).setHead i2 a else s
  if s1.headPos i2 > s1.genome.length then s1.setHead i2 s1.genome.length else s1

/-- The validity check and extraction of Inst_DivideCell, applied to the
post-swap-post-clamp state: an invalid geometry bumps the error counter;
otherwise `Extract(h1, h2 - h1)` (a Copy of `[h1, h1 + count)` followed by an
Erase of the same range) moves the selected range to the offspring buffer,
then the write slot is set to h1 and the read slot to 0. -/
def divideCheck (i1 i2 : Nat) (s2 : VMState) : VMState :=
  let h1 := s2.headPos i1
  let h2 := s2.headPos i2
  if h1 ≥ s2.genome.length ∨ h1 = h2 then s2.addError
  else
    let s3 := { s2 with
      offspring := (s2.genome.drop h1).take (h2 - h1),
      genome := s2.genome.take h1 ++ s2.genome.drop (h1 + (h2 - h1)) }
    (s3.setHead i2 h1).setHead i1 0

def divideCore (i1 i2 : Nat) (s : VMState) : VMState :=
  divideCheck i1 i2 (divideSwapClamp i1 i2 s)

/-- The two argument decodes of Inst_DivideCell: the read-head choice
(default G_READ = 1) and the write-head choice (default G_WRITE = 2). -/
def divideDecode (s : VMState) : Nat × Nat × VMState :=
  let (i1, s1) := s.getArg 1
  let (i2, s2) := s1.getArg 2
  (i1, i2, s2)

/-- Inst_DivideCell: split off the genome between the two selected heads
into the offspring buffer, resetting both heads. -/
def inst_DivideCell (s : VMState) : VMState :=
  match divideDecode s with
  | (i1, i2, s2) => divideCore i1 i2 s2

/-- Inst_HeadPos: push the position of head GetHeadArg(FLOW) (converted
size_t to int) onto stack GetArg(Nop-A); the position is read before the
stack decode. -/
def inst_HeadPos (s : VMState) : VMState :=
  let (ih, s1) := s.getArg 5
  let pos := s1.headPos ih
  let (ist, s2) := s1.getArg 0
  s2.pushStack ist (toInt32 pos)

/-- Inst_SetHead: pop stack GetArg(Nop-A) and move head GetHeadArg(FLOW) to
that position (int converted to size_t). -/
def inst_SetHead (s : VMState) : VMState :=
  let (ist, s1) := s.getArg 0
  let (v, s2) := s1.popStack ist
  let (ih, s3) := s2.getArg 5
  s3.setHead ih (toSize64 v)

/-- Inst_JumpHead: move head GetHeadArg(IP) to head GetHeadArg(FLOW). -/
def inst_JumpHead (s : VMState) : VMState :=
  let (i1, s1) := s.getArg 0
  let (i2, s2) := s1.getArg 5
  s2.setHead i1 (s2.headPos i2)

/-- Inst_OffsetHead: shift head GetHeadArg(FLOW) by the popped value of
stack GetArg(Nop-A) (size_t addition of a signed offset). -/
def inst_OffsetHead (s : VMState) : VMState :=
  let (ih, s1) := s.getArg 5
  let (ist, s2) := s1.getArg 0
  let (v, s3) := s2.popStack ist
  s3.setHead ih (addSize64 (s3.headPos ih) v)

/-- The handler table of the canonical instruction set in BuildInstSet order:
entry k is the handler of opcode 6 + k (the first six entries of `funs` are
the null nop handlers, skipped by Execute). -/
def handlers : List (VMState → VMState) :=
  [inst_Const, inst_Offset, inst_Not, inst_Shift, inst_Add, inst_Sub,
   inst_Mult, inst_Div, inst_Mod, inst_Exp, inst_Sort, inst_TestLess,
   inst_TestEqu, inst_Nand, inst_Xor, inst_If, inst_IfNot, inst_Scope,
   inst_Continue, inst_Break, inst_StackPop, inst_StackDup, inst_StackSwap,
   inst_StackMove, inst_CopyInst, inst_Load, inst_Store, inst_DivideCell,
   inst_HeadPos, inst_SetHead, inst_JumpHead, inst_OffsetHead]

/-- The number of entries in the canonical instruction set (6 nops plus the
32 handlers). -/
def instSetSize : Nat := 6 + handlers.length

/-- InstSet::Execute for the canonical set: a nop id returns immediately;
an id with a registered handler dispatches to it; an id at or beyond
`num_insts` reaches a default-initialized entry of the `funs` array (an
indeterminate function pointer), modelled as a fault (`none`).  There is no
modulo fold anywhere on this path. -/
def execute (s : VMState) (id : Nat) : Option VMState :=
  if id < 6 then some s
  else (handlers.get? (id - 6)).map (fun f => f s)

/-- AvidaVM::ProcessInst: read the byte at IP, advance IP, dispatch the
byte that was read. -/
def processInst (s : VMState) : Option VMState :=
  execute s.advanceIP s.readIP

/-- A freshly constructed (equivalently, freshly Reset) VM on genome `g`:
empty offspring, zeroed memory, heads at (0, 0, |g|, 0, 0, 0), reset
stacks, zero errors. -/
def resetVM (g : List Nat) : VMState :=
  ⟨g, [], List.replicate 64 0, [0, 0, g.length, 0, 0, 0],
   List.replicate 6 stackReset, 0⟩

/-- The display symbol InstSet::AddInst assigns to the entry added when
`num_insts = id`: letters a-z, then A-Z, then digits, then the overflow
symbol. -/
def symbolOfId (id : Nat) : Char :=
  if id < 26 then Char.ofNat (97 + id)
  else if id < 52 then Char.ofNat (65 + (id - 26))
  else if id < 62 then Char.ofNat (48 + (id - 52))
  else '?'

/-- InstSet::GetSymbol for the canonical set: entries at or beyond
`num_insts` = 38 are default-initialized InstInfo records whose symbol is
the overflow symbol. -/
def getSymbol (id : Nat) : Char :=
  if id < instSetSize then symbolOfId id else '?'

/-- InstSet::GetID by symbol for the canonical set: a linear scan of the
info array returning the id of the first entry with the symbol.  The
entries past `num_insts` all carry the overflow symbol and a
default-initialized (indeterminate) id field, so looking up the overflow
symbol reads uninitialized data, modelled as `none`; any other unmatched
symbol matches no entry and yields NULL_ID = 255. -/
def getID (c : Char) : Option Nat :=
  match (List.range instSetSize).find? (fun i => symbolOfId i == c) with
  | some i => some i
  | none => if c = '?' then none else some 255

/-- The symbols assigned to the 38 entries of the canonical instruction set. -/
def canonicalSymbols : List Char := (List.range instSetSize).map symbolOfId

/-- InstSet::BuildGenome from a string sequence: push GetID(symbol) for each
character (faulting where GetID reads uninitialized data). -/
def buildGenome (seq : List Char) : Option (List Nat) := seq.mapM getID

/-- InstSet::ToSequence: the string of per-byte symbols. -/
def toSequence (g : List Nat) : List Char := g.map getSymbol

/-- A concrete state exhibiting the head clobbering of an erroring
DivideCell: genome DivideCell, Nop-B, Nop-C (as after fetching the opcode
at position 0, so IP = 1), with G_READ at 9 and G_WRITE at 4 on the 3-byte
genome. -/
def divideErrState : VMState :=
  ⟨[33, 1, 2], [], List.replicate 64 0, [1, 9, 4, 0, 0, 0],
   List.replicate 6 stackReset, 0⟩

/-- The state divideErrState reaches after the two argument decodes of
DivideCell (IP consumed the Nop-B and Nop-C bytes): G_READ = 9, G_WRITE = 4
on the 3-byte genome, an invalid geometry. -/
def divideErrPost : VMState :=
  ⟨[33, 1, 2], [], List.replicate 64 0, [3, 9, 4, 0, 0, 0],
   List.replicate 6 stackReset, 0⟩

/-- A concrete post-decode state with a valid DivideCell geometry:
G_READ = 1 and G_WRITE = 3 on a 3-byte genome. -/
def divideOkState : VMState :=
  ⟨[9, 8, 7], [], List.replicate 64 0, [0, 1, 3, 0, 0, 0],
   List.replicate 6 stackReset, 0⟩

/-- A concrete reset-style state on genome Div, Nop-B, Nop-A, Nop-C: both
decoded pops hit freshly reset stacks, so the divisor is 0. -/
def divZeroState : VMState :=
  ⟨[13, 1, 0, 2], [], List.replicate 64 0, [0, 0, 0, 0, 0, 0],
   List.replicate 6 stackReset, 0⟩

/-- The same state with 7 in the slot popped from stack A (slot 15, cursor
0), making the divisor nonzero. -/
def divNonzeroState : VMState :=
  ⟨[13, 1, 0, 2], [], List.replicate 64 0, [0, 0, 0, 0, 0, 0],
   [⟨(List.replicate 16 0).set 15 7, 0⟩, stackReset, stackReset, stackReset,
    stackReset, stackReset], 0⟩

/-- A 2048-byte genome beginning with CopyInst, Nop-B, Nop-C, used to show
that CopyInst grows a maximum-size genome past MAX_GENOME_SIZE. -/
def bigGenome : List Nat := 30 :: 1 :: 2 :: List.replicate 2045 0

/-! Frame lemmas: which state components each primitive operation can touch. -/

theorem getArg_snd_eq (s : VMState) (d : Nat) :
    (s.getArg d).2 = if s.readIP < 6 then s.advanceIP else s := by
  unfold VMState.getArg; split <;> rfl

/-- GetArg touches nothing but the heads array (it may advance IP). -/
theorem getArg_frame {s : VMState} {d a : Nat} {t : VMState}
    (h : s.getArg d = (a, t)) :
    t.genome = s.genome ∧ t.offspring = s.offspring ∧ t.memory = s.memory ∧
    t.stackArr = s.stackArr ∧ t.errorCount = s.errorCount := by
  have ht : t = (s.getArg d).2 := by rw [h]
  subst ht
  rw [getArg_snd_eq]
  split <;> exact ⟨rfl, rfl, rfl, rfl, rfl⟩

@[simp] theorem getArg_snd_genome (s : VMState) (d : Nat) :
    (s.getArg d).2.genome = s.genome := by
  rw [getArg_snd_eq]; split <;> rfl

@[simp] theorem getArg_snd_offspring (s : VMState) (d : Nat) :
    (s.getArg d).2.offspring = s.offspring := by
  rw [getArg_snd_eq]; split <;> rfl

@[simp] theorem getArg_snd_memory (s : VMState) (d : Nat) :
    (s.getArg d).2.memory = s.memory := by
  rw [getArg_snd_eq]; split <;> rfl

@[simp] theorem getArg_snd_stackArr (s : VMState) (d : Nat) :
    (s.getArg d).2.stackArr = s.stackArr := by
  rw [getArg_snd_eq]; split <;> rfl

@[simp] theorem getArg_snd_errorCount (s : VMState) (d : Nat) :
    (s.getArg d).2.errorCount = s.errorCount := by
  rw [getArg_snd_eq]; split <;> rfl

/-- Popping a stack touches nothing but the stack array. -/
theorem popStack_frame {s : VMState} {i : Nat} {v : Int} {t : VMState}
    (h : s.popStack i = (v, t)) :
    t.genome = s.genome ∧ t.offspring = s.offspring ∧ t.memory = s.memory ∧
    t.heads = s.heads ∧ t.errorCount = s.errorCount := by
  have ht : t = (s.popStack i).2 := by rw [h]
  subst ht
  exact ⟨rfl, rfl, rfl, rfl, rfl⟩

@[simp] theorem pushStack_genome (s : VMState) (i : Nat) (v : Int) :
    (s.pushStack i v).genome = s.genome := rfl

@[simp] theorem pushStack_offspring (s : VMState) (i : Nat) (v : Int) :
    (s.pushStack i v).offspring = s.offspring := rfl

@[simp] theorem pushStack_memory (s : VMState) (i : Nat) (v : Int) :
    (s.pushStack i v).memory = s.memory := rfl

@[simp] theorem pushStack_heads (s : VMState) (i : Nat) (v : Int) :
    (s.pushStack i v).heads = s.heads := rfl

@[simp] theorem pushStack_errorCount (s : VMState) (i : Nat) (v : Int) :
    (s.pushStack i v).errorCount = s.errorCount := rfl

@[simp] theorem setHead_genome (s : VMState) (i v : Nat) :
    (s.setHead i v).genome = s.genome := rfl

@[simp] theorem setHead_offspring (s : VMState) (i v : Nat) :
    (s.setHead i v).offspring = s.offspring := rfl

@[simp] theorem setHead_memory (s : VMState) (i v : Nat) :
    (s.setHead i v).memory = s.memory := rfl

@[simp] theorem setHead_stackArr (s : VMState) (i v : Nat) :
    (s.setHead i v).stackArr = s.stackArr := rfl

@[simp] theorem setHead_errorCount (s : VMState) (i v : Nat) :
    (s.setHead i v).errorCount = s.errorCount := rfl

@[simp] theorem setIP_genome (s : VMState) (v : Nat) : (s.setIP v).genome = s.genome := rfl

@[simp] theorem advanceIP_genome (s : VMState) : s.advanceIP.genome = s.genome := rfl

@[simp] theorem advanceIP_offspring (s : VMState) : s.advanceIP.offspring = s.offspring := rfl

@[simp] theorem advanceIP_memory (s : VMState) : s.advanceIP.memory = s.memory := rfl

@[simp] theorem advanceIP_stackArr (s : VMState) : s.advanceIP.stackArr = s.stackArr := rfl

@[simp] theorem advanceIP_errorCount (s : VMState) : s.advanceIP.errorCount = s.errorCount := rfl

@[simp] theorem addError_genome (s : VMState) : s.addError.genome = s.genome := rfl

@[simp] theorem addError_offspring (s : VMState) : s.addError.offspring = s.offspring := rfl

@[simp] theorem addError_memory (s : VMState) : s.addError.memory = s.memory := rfl

@[simp] theorem addError_heads (s : VMState) : s.addError.heads = s.heads := rfl

@[simp] theorem addError_stackArr (s : VMState) : s.addError.stackArr = s.stackArr := rfl

@[simp] theorem addError_errorCount (s : VMState) : s.addError.errorCount = s.errorCount + 1 := rfl

@[simp] theorem writeMemory_genome (s : VMState) (pos : Nat) (v : Int) :
    (s.writeMemory pos v).genome = s.genome := by
  unfold VMState.writeMemory; split <;> rfl

@[simp] theorem writeMemory_offspring (s : VMState) (pos : Nat) (v : Int) :
    (s.writeMemory pos v).offspring = s.offspring := by
  unfold VMState.writeMemory; split <;> rfl

@[simp] theorem writeMemory_heads (s : VMState) (pos : Nat) (v : Int) :
    (s.writeMemory pos v).heads = s.heads := by
  unfold VMState.writeMemory; split <;> rfl

@[simp] theorem writeMemory_stackArr (s : VMState) (pos : Nat) (v : Int) :
    (s.writeMemory pos v).stackArr = s.stackArr := by
  unfold VMState.writeMemory; split <;> rfl

@[simp] theorem writeGenome_offspring (s : VMState) (pos id : Nat) :
    (s.writeGenome pos id).offspring = s.offspring := by
  unfold VMState.writeGenome; split <;> rfl

@[simp] theorem writeGenome_memory (s : VMState) (pos id : Nat) :
    (s.writeGenome pos id).memory = s.memory := by
  unfold VMState.writeGenome; split <;> rfl

@[simp] theorem writeGenome_heads (s : VMState) (pos id : Nat) :
    (s.writeGenome pos id).heads = s.heads := by
  unfold VMState.writeGenome; split <;> rfl

@[simp] theorem writeGenome_stackArr (s : VMState) (pos id : Nat) :
    (s.writeGenome pos id).stackArr = s.stackArr := by
  unfold VMState.writeGenome; split <;> rfl

@[simp] theorem writeGenome_errorCount (s : VMState) (pos id : Nat) :
    (s.writeGenome pos id).errorCount = s.errorCount := by
  unfold VMState.writeGenome; split <;> rfl

/-- WriteGenome always grows the genome by exactly one byte (an insertion in
range, a push otherwise). -/
theorem writeGenome_length (s : VMState) (pos id : Nat) :
    (s.writeGenome pos id).genome.length = s.genome.length + 1 := by
  unfold VMState.writeGenome
  split
  · next h => simp [List.length_insertIdx _ _ (Nat.le_of_lt h)]
  · simp

theorem getD_set_self {α : Type} (l : List α) (i : Nat) (v d : α) (h : i < l.length) :
    (l.set i v).getD i d = v := by
  simp [List.getD_eq_getElem?_getD, List.getElem?_set_self h]

theorem getD_set_ne {α : Type} (l : List α) {i j : Nat} (v : α) (d : α) (h : i ≠ j) :
    (l.set i v).getD j d = l.getD j d := by
  simp [List.getD_eq_getElem?_getD, List.getElem?_set_ne h]

/-! Genome frame facts for every handler: only CopyInst grows the genome
(by exactly one byte) and only DivideCell shrinks it. -/

theorem genome_arith2 (f : Int → Int → Int) (s : VMState) :
    (arith2 f s).genome = s.genome := by
  unfold arith2
  rcases h1 : s.getArg 0 with ⟨xid, s1⟩
  rcases h2 : s1.popStack xid with ⟨x, s2⟩
  rcases h3 : s2.getArg xid with ⟨yid, s3⟩
  rcases h4 : s3.popStack yid with ⟨y, s4⟩
  rcases h5 : s4.getArg xid with ⟨zid, s5⟩
  simp only [h1, h2, h3, h4, h5]
  rw [pushStack_genome, (getArg_frame h5).1, (popStack_frame h4).1, (getArg_frame h3).1,
    (popStack_frame h2).1, (getArg_frame h1).1]

theorem genome_inst_Const (s : VMState) : (inst_Const s).genome = s.genome := by
  unfold inst_Const
  rcases h1 : s.getArg 0 with ⟨a, s1⟩
  rcases h2 : s1.getArg 0 with ⟨i, s2⟩
  simp only [h1, h2]
  rw [pushStack_genome, (getArg_frame h2).1, (getArg_frame h1).1]

theorem genome_inst_Offset (s : VMState) : (inst_Offset s).genome = s.genome := by
  unfold inst_Offset
  rcases h1 : s.getArg 0 with ⟨a, s1⟩
  rcases h2 : s1.getArg 0 with ⟨yid, s2⟩
  rcases h3 : s2.popStack yid with ⟨y, s3⟩
  rcases h4 : s3.getArg yid with ⟨zid, s4⟩
  simp only [h1, h2, h3, h4]
  rw [pushStack_genome, (getArg_frame h4).1, (popStack_frame h3).1, (getArg_frame h2).1,
    (getArg_frame h1).1]

theorem genome_inst_Not (s : VMState) : (inst_Not s).genome = s.genome := by
  unfold inst_Not
  rcases h1 : s.getArg 0 with ⟨xid, s1⟩
  rcases h2 : s1.popStack xid with ⟨x, s2⟩
  rcases h3 : s2.getArg xid with ⟨zid, s3⟩
  simp only [h1, h2, h3]
  rw [pushStack_genome, (getArg_frame h3).1, (popStack_frame h2).1, (getArg_frame h1).1]

theorem genome_inst_Shift (s : VMState) : (inst_Shift s).genome = s.genome := genome_arith2 _ s

theorem genome_inst_Add (s : VMState) : (inst_Add s).genome = s.genome := genome_arith2 _ s

theorem genome_inst_Sub (s : VMState) : (inst_Sub s).genome = s.genome := genome_arith2 _ s

theorem genome_inst_Mult (s : VMState) : (inst_Mult s).genome = s.genome := genome_arith2 _ s

theorem genome_inst_Exp (s : VMState) : (inst_Exp s).genome = s.genome := genome_arith2 _ s

theorem genome_inst_TestLess (s : VMState) : (inst_TestLess s).genome = s.genome :=
  genome_arith2 _ s

theorem genome_inst_TestEqu (s : VMState) : (inst_TestEqu s).genome = s.genome :=
  genome_arith2 _ s

theorem genome_inst_Nand (s : VMState) : (inst_Nand s).genome = s.genome := genome_arith2 _ s

theorem genome_inst_Xor (s : VMState) : (inst_Xor s).genome = s.genome := genome_arith2 _ s

/-- The decode-and-pop prefix shared by Div and Mod touches neither genome,
offspring, memory nor the error counter. -/
theorem divmodDecode_frame {s : VMState} {xid : Nat} {x y : Int} {s4 : VMState}
    (h : divmodDecode s = (xid, x, y, s4)) :
    s4.genome = s.genome ∧ s4.offspring = s.offspring ∧ s4.memory = s.memory ∧
    s4.errorCount = s.errorCount := by
  unfold divmodDecode at h
  rcases h1 : s.getArg 0 with ⟨a, s1⟩
  rcases h2 : s1.popStack a with ⟨xv, s2⟩
  rcases h3 : s2.getArg a with ⟨b, s3⟩
  rcases h4 : s3.popStack b with ⟨yv, t⟩
  simp only [h1, h2, h3, h4, Prod.mk.injEq] at h
  obtain ⟨rfl, rfl, rfl, rfl⟩ := h
  refine ⟨?_, ?_, ?_, ?_⟩
  · rw [(popStack_frame h4).1, (getArg_frame h3).1, (popStack_frame h2).1, (getArg_frame h1).1]
  · rw [(popStack_frame h4).2.1, (getArg_frame h3).2.1, (popStack_frame h2).2.1,
      (getArg_frame h1).2.1]
  · rw [(popStack_frame h4).2.2.1, (getArg_frame h3).2.2.1, (popStack_frame h2).2.2.1,
      (getArg_frame h1).2.2.1]
  · rw [(popStack_frame h4).2.2.2.2, (getArg_frame h3).2.2.2.2, (popStack_frame h2).2.2.2.2,
      (getArg_frame h1).2.2.2.2]

theorem inst_Div_eq {s : VMState} {xid : Nat} {x y : Int} {s4 : VMState}
    (hd : divmodDecode s = (xid, x, y, s4)) :
    inst_Div s = divmodFinish Int.tdiv xid x y s4 := by
  unfold inst_Div
  rw [hd]

theorem inst_Mod_eq {s : VMState} {xid : Nat} {x y : Int} {s4 : VMState}
    (hd : divmodDecode s = (xid, x, y, s4)) :
    inst_Mod s = divmodFinish Int.tmod xid x y s4 := by
  unfold inst_Mod
  rw [hd]

theorem genome_divmodFinish (op : Int → Int → Int) (xid : Nat) (x y : Int) (s4 : VMState) :
    (divmodFinish op xid x y s4).genome = s4.genome := by
  unfold divmodFinish
  split
  · rw [addError_genome]
  · rw [pushStack_genome, getArg_snd_genome]

theorem genome_inst_Div (s : VMState) : (inst_Div s).genome = s.genome := by
  rcases hd : divmodDecode s with ⟨xid, x, y, s4⟩
  rw [inst_Div_eq hd, genome_divmodFinish, (divmodDecode_frame hd).1]

theorem genome_inst_Mod (s : VMState) : (inst_Mod s).genome = s.genome := by
  rcases hd : divmodDecode s with ⟨xid, x, y, s4⟩
  rw [inst_Mod_eq hd, genome_divmodFinish, (divmodDecode_frame hd).1]

theorem genome_inst_Sort (s : VMState) : (inst_Sort s).genome = s.genome := by
  unfold inst_Sort
  rcases h1 : s.getArg 0 with ⟨xid, s1⟩
  rcases h2 : s1.getArg xid with ⟨yid, s2⟩
  rcases h3 : s2.popStack xid with ⟨x, s3⟩
  rcases h4 : s3.popStack yid with ⟨y, s4⟩
  rcases h5 : s4.getArg xid with ⟨z1, s5⟩
  rcases h6 : (s5.pushStack z1 (if x < y then (y, x) else (x, y)).1).getArg yid with ⟨z2, s7⟩
  simp only [h1, h2, h3, h4, h5, h6]
  rw [pushStack_genome, (getArg_frame h6).1, pushStack_genome, (getArg_frame h5).1,
    (popStack_frame h4).1, (popStack_frame h3).1, (getArg_frame h2).1, (getArg_frame h1).1]

theorem genome_inst_If (s : VMState) : (inst_If s).genome = s.genome := by
  unfold inst_If
  rcases h1 : s.getArg 0 with ⟨i, s1⟩
  rcases h2 : s1.popStack i with ⟨x, s2⟩
  simp only [h1, h2]
  split
  · rw [advanceIP_genome, (popStack_frame h2).1, (getArg_frame h1).1]
  · rw [(popStack_frame h2).1, (getArg_frame h1).1]

theorem genome_inst_IfNot (s : VMState) : (inst_IfNot s).genome = s.genome := by
  unfold inst_IfNot
  rcases h1 : s.getArg 0 with ⟨i, s1⟩
  rcases h2 : s1.popStack i with ⟨x, s2⟩
  simp only [h1, h2]
  split
  · rw [(popStack_frame h2).1, (getArg_frame h1).1]
  · rw [advanceIP_genome, (popStack_frame h2).1, (getArg_frame h1).1]

theorem genome_inst_Scope (s : VMState) : (inst_Scope s).genome = s.genome := rfl

theorem genome_inst_Continue (s : VMState) : (inst_Continue s).genome = s.genome := by
  unfold inst_Continue
  rcases h1 : s.getArg 0 with ⟨t, s1⟩
  simp only [h1]
  rw [setIP_genome, (getArg_frame h1).1]

theorem genome_inst_Break (s : VMState) : (inst_Break s).genome = s.genome := by
  unfold inst_Break
  rcases h1 : s.getArg 0 with ⟨t, s1⟩
  simp only [h1]
  rw [setIP_genome, (getArg_frame h1).1]

theorem genome_inst_StackPop (s : VMState) : (inst_StackPop s).genome = s.genome := by
  unfold inst_StackPop
  rcases h1 : s.getArg 0 with ⟨i, s1⟩
  simp only [h1]
  rw [show (s1.popStack i).2.genome = s1.genome from rfl, (getArg_frame h1).1]

theorem genome_inst_StackDup (s : VMState) : (inst_StackDup s).genome = s.genome := by
  unfold inst_StackDup
  rcases h1 : s.getArg 0 with ⟨i, s1⟩
  rcases h2 : s1.getArg i with ⟨j, s2⟩
  simp only [h1, h2]
  rw [pushStack_genome, (getArg_frame h2).1, (getArg_frame h1).1]

theorem genome_inst_StackSwap (s : VMState) : (inst_StackSwap s).genome = s.genome := by
  unfold inst_StackSwap
  rcases h1 : s.getArg 0 with ⟨i, s1⟩
  rcases h2 : s1.getArg i with ⟨j, s2⟩
  rcases h3 : s2.popStack i with ⟨x, s3⟩
  rcases h4 : s3.popStack j with ⟨y, s4⟩
  rcases h5 : s4.getArg j with ⟨a, s5⟩
  rcases h6 : (s5.pushStack a x).getArg i with ⟨b, s7⟩
  simp only [h1, h2, h3, h4, h5, h6]
  rw [pushStack_genome, (getArg_frame h6).1, pushStack_genome, (getArg_frame h5).1,
    (popStack_frame h4).1, (popStack_frame h3).1, (getArg_frame h2).1, (getArg_frame h1).1]

theorem genome_inst_StackMove (s : VMState) : (inst_StackMove s).genome = s.genome := by
  unfold inst_StackMove
  rcases h1 : s.getArg 0 with ⟨i, s1⟩
  rcases h2 : s1.getArg ((i + 1) % 6) with ⟨j, s2⟩
  simp only [h1, h2]
  split
  · rw [(getArg_frame h2).1, (getArg_frame h1).1]
  · rcases h3 : s2.popStack i with ⟨v, s3⟩
    simp only [h3]
    rw [pushStack_genome, (popStack_frame h3).1, (getArg_frame h2).1, (getArg_frame h1).1]

theorem length_inst_CopyInst (s : VMState) :
    (inst_CopyInst s).genome.length = s.genome.length + 1 := by
  unfold inst_CopyInst
  rcases h1 : s.getArg 1 with ⟨ir, s1⟩
  rcases h2 : s1.getArg 2 with ⟨iw, s2⟩
  simp only [h1, h2]
  rw [setHead_genome, setHead_genome, writeGenome_length, (getArg_frame h2).1,
    (getArg_frame h1).1]

theorem genome_inst_Load (s : VMState) : (inst_Load s).genome = s.genome := by
  unfold inst_Load
  rcases h1 : s.getArg 3 with ⟨ih, s1⟩
  rcases h2 : s1.getArg 0 with ⟨ist, s2⟩
  simp only [h1, h2]
  rw [setHead_genome, pushStack_genome, (getArg_frame h2).1, (getArg_frame h1).1]

theorem genome_inst_Store (s : VMState) : (inst_Store s).genome = s.genome := by
  unfold inst_Store
  rcases h1 : s.getArg 0 with ⟨ist, s1⟩
  rcases h2 : s1.popStack ist with ⟨v, s2⟩
  rcases h3 : s2.getArg 4 with ⟨ih, s3⟩
  simp only [h1, h2, h3]
  rw [setHead_genome, writeMemory_genome, (getArg_frame h3).1, (popStack_frame h2).1,
    (getArg_frame h1).1]

theorem divideCore_genome_length (i1 i2 : Nat) (s : VMState) :
    (divideCore i1 i2 s).genome.length ≤ s.genome.length := by
  simp only [divideCore, divideCheck, divideSwapClamp]
  repeat' split
  all_goals
    simp only [addError_genome, setHead_genome, List.length_append, List.length_take,
      List.length_drop]
  all_goals omega

theorem genome_inst_DivideCell_le (s : VMState) :
    (inst_DivideCell s).genome.length ≤ s.genome.length := by
  unfold inst_DivideCell
  rcases hd : divideDecode s with ⟨i1, i2, s2⟩
  simp only [hd]
  have hframe : s2.genome = s.genome := by
    unfold divideDecode at hd
    rcases h1 : s.getArg 1 with ⟨a, t1⟩
    rcases h2 : t1.getArg 2 with ⟨b, t2⟩
    simp only [h1, h2, Prod.mk.injEq] at hd
    obtain ⟨rfl, rfl, rfl⟩ := hd
    rw [(getArg_frame h2).1, (getArg_frame h1).1]
  calc (divideCore i1 i2 s2).genome.length ≤ s2.genome.length :=
        divideCore_genome_length i1 i2 s2
    _ = s.genome.length := by rw [hframe]

theorem genome_inst_HeadPos (s : VMState) : (inst_HeadPos s).genome = s.genome := by
  unfold inst_HeadPos
  rcases h1 : s.getArg 5 with ⟨ih, s1⟩
  rcases h2 : s1.getArg 0 with ⟨ist, s2⟩
  simp only [h1, h2]
  rw [pushStack_genome, (getArg_frame h2).1, (getArg_frame h1).1]

theorem genome_inst_SetHead (s : VMState) : (inst_SetHead s).genome = s.genome := by
  unfold inst_SetHead
  rcases h1 : s.getArg 0 with ⟨ist, s1⟩
  rcases h2 : s1.popStack ist with ⟨v, s2⟩
  rcases h3 : s2.getArg 5 with ⟨ih, s3⟩
  simp only [h1, h2, h3]
  rw [setHead_genome, (getArg_frame h3).1, (popStack_frame h2).1, (getArg_frame h1).1]

theorem genome_inst_JumpHead (s : VMState) : (inst_JumpHead s).genome = s.genome := by
  unfold inst_JumpHead
  rcases h1 : s.getArg 0 with ⟨i1, s1⟩
  rcases h2 : s1.getArg 5 with ⟨i2, s2⟩
  simp only [h1, h2]
  rw [setHead_genome, (getArg_frame h2).1, (getArg_frame h1).1]

theorem genome_inst_OffsetHead (s : VMState) : (inst_OffsetHead s).genome = s.genome := by
  unfold inst_OffsetHead
  rcases h1 : s.getArg 5 with ⟨ih, s1⟩
  rcases h2 : s1.getArg 0 with ⟨ist, s2⟩
  rcases h3 : s2.popStack ist with ⟨v, s3⟩
  simp only [h1, h2, h3]
  rw [setHead_genome, (popStack_frame h3).1, (getArg_frame h2).1, (getArg_frame h1).1]

theorem headPos_setHead_self (s : VMState) (i v : Nat) (h : i < s.heads.length) :
    (s.setHead i v).headPos i = v := by
  unfold VMState.headPos VMState.setHead
  exact getD_set_self _ _ _ _ h

theorem headPos_setHead_ne (s : VMState) {i j : Nat} (v : Nat) (h : i ≠ j) :
    (s.setHead i v).headPos j = s.headPos j := by
  unfold VMState.headPos VMState.setHead
  exact getD_set_ne _ _ _ h

@[simp] theorem setHead_heads_length (s : VMState) (i v : Nat) :
    (s.setHead i v).heads.length = s.heads.length := by
  unfold VMState.setHead
  exact List.length_set s.heads i v

/-- What the swap and clamp steps do to the two selected head slots when the
two decodes picked distinct heads: the first slot ends at the smaller
position, the second at the larger clamped to the genome length, and no
other component changes. -/
theorem swapClamp_spec (i1 i2 : Nat) (s : VMState) (hne : i1 ≠ i2)
    (hlen : s.heads.length = 6) (hi1 : i1 < 6) (hi2 : i2 < 6) :
    (divideSwapClamp i1 i2 s).headPos i1 = min (s.headPos i1) (s.headPos i2) ∧
    (divideSwapClamp i1 i2 s).headPos i2 =
      min (max (s.headPos i1) (s.headPos i2)) s.genome.length ∧
    (divideSwapClamp i1 i2 s).genome = s.genome ∧
    (divideSwapClamp i1 i2 s).offspring = s.offspring ∧
    (divideSwapClamp i1 i2 s).memory = s.memory ∧
    (divideSwapClamp i1 i2 s).stackArr = s.stackArr ∧
    (divideSwapClamp i1 i2 s).errorCount = s.errorCount ∧
    (divideSwapClamp i1 i2 s).heads.length = s.heads.length := by
  have hi1l : i1 < s.heads.length := by omega
  have hi2l : i2 < (s.setHead i1 (s.headPos i2)).heads.length := by simp; omega
  simp only [divideSwapClamp]
  by_cases hsw : s.headPos i2 < s.headPos i1
  · simp only [if_pos hsw]
    have e1 : ((s.setHead i1 (s.headPos i2)).setHead i2 (s.headPos i1)).headPos i1
        = s.headPos i2 := by
      rw [headPos_setHead_ne _ _ (Ne.symm hne), headPos_setHead_self _ _ _ hi1l]
    have e2 : ((s.setHead i1 (s.headPos i2)).setHead i2 (s.headPos i1)).headPos i2
        = s.headPos i1 := by
      rw [headPos_setHead_self _ _ _ hi2l]
    simp only [e2, setHead_genome]
    by_cases hcl : s.genome.length < s.headPos i1
    · simp only [if_pos hcl]
      have e3 : (((s.setHead i1 (s.headPos i2)).setHead i2 (s.headPos i1)).setHead i2
          s.genome.length).headPos i1 = s.headPos i2 := by
        rw [headPos_setHead_ne _ _ (Ne.symm hne), e1]
      have e4 : (((s.setHead i1 (s.headPos i2)).setHead i2 (s.headPos i1)).setHead i2
          s.genome.length).headPos i2 = s.genome.length := by
        rw [headPos_setHead_self]; simp; omega
      refine ⟨?_, ?_, rfl, rfl, rfl, rfl, rfl, by simp⟩
      · rw [e3]; omega
      · rw [e4]; omega
    · simp only [if_neg hcl]
      refine ⟨?_, ?_, rfl, rfl, rfl, rfl, rfl, by simp⟩
      · rw [e1]; omega
      · rw [e2]; omega
  · simp only [if_neg hsw]
    by_cases hcl : s.genome.length < s.headPos i2
    · simp only [if_pos hcl]
      have e3 : (s.setHead i2 s.genome.length).headPos i1 = s.headPos i1 :=
        headPos_setHead_ne _ _ (Ne.symm hne)
      have e4 : (s.setHead i2 s.genome.length).headPos i2 = s.genome.length := by
        rw [headPos_setHead_self]; omega
      refine ⟨?_, ?_, rfl, rfl, rfl, rfl, rfl, by simp⟩
      · rw [e3]; omega
      · rw [e4]; omega
    · simp only [if_neg hcl]
      refine ⟨?_, ?_, ?_, ?_, ?_, ?_, ?_, ?_⟩ <;> first | trivial | omega

/-- The error branch of the DivideCell check: the error counter is bumped
and nothing else happens. -/
theorem divideCheck_err (i1 i2 : Nat) (t : VMState)
    (hcond : t.headPos i1 ≥ t.genome.length ∨ t.headPos i1 = t.headPos i2) :
    divideCheck i1 i2 t = t.addError := by
  simp only [divideCheck]
  rw [if_pos hcond]

/-- The success branch of the DivideCell check: the range between the two
selected positions moves to the offspring buffer, the write slot is set to
the lower position and the read slot to 0. -/
theorem divideCheck_ok (i1 i2 : Nat) (t : VMState) (hne : i1 ≠ i2)
    (hlen : t.heads.length = 6) (hi1 : i1 < 6) (hi2 : i2 < 6)
    (hcond : ¬(t.headPos i1 ≥ t.genome.length ∨ t.headPos i1 = t.headPos i2)) :
    (divideCheck i1 i2 t).offspring =
      (t.genome.drop (t.headPos i1)).take (t.headPos i2 - t.headPos i1) ∧
    (divideCheck i1 i2 t).genome =
      t.genome.take (t.headPos i1) ++
        t.genome.drop (t.headPos i1 + (t.headPos i2 - t.headPos i1)) ∧
    (divideCheck i1 i2 t).headPos i2 = t.headPos i1 ∧
    (divideCheck i1 i2 t).headPos i1 = 0 ∧
    (divideCheck i1 i2 t).errorCount = t.errorCount := by
  simp only [divideCheck]
  rw [if_neg hcond]
  refine ⟨rfl, rfl, ?_, ?_, rfl⟩
  · rw [headPos_setHead_ne _ _ hne, headPos_setHead_self]
    simp; omega
  · rw [headPos_setHead_self]
    simp; omega

/-- When the two decodes picked the same head, the swap is vacuous, the
clamp acts on the single shared slot, and the check always fails (the two
positions coincide), so DivideCell always errors. -/
theorem divideCore_self (i : Nat) (s : VMState) :
    divideCore i i s =
      (if s.headPos i > s.genome.length then s.setHead i s.genome.length else s).addError := by
  unfold divideCore
  have h1 : divideSwapClamp i i s =
      if s.headPos i > s.genome.length then s.setHead i s.genome.length else s := by
    simp only [divideSwapClamp, lt_irrefl, if_false]
  rw [h1]
  apply divideCheck_err
  exact Or.inr rfl

/-- Every registered handler changes the genome length by at most +1. -/
theorem handlers_genome_growth :
    ∀ f ∈ handlers, ∀ s : VMState, (f s).genome.length ≤ s.genome.length + 1 := by
  intro f hf s
  simp only [handlers, List.mem_cons, List.not_mem_nil, or_false] at hf
  rcases hf with rfl | rfl | rfl | rfl | rfl | rfl | rfl | rfl | rfl | rfl | rfl | rfl | rfl | rfl | rfl | rfl | rfl | rfl | rfl | rfl | rfl | rfl | rfl | rfl | rfl | rfl | rfl | rfl | rfl | rfl | rfl | rfl
  · rw [genome_inst_Const]; omega
  · rw [genome_inst_Offset]; omega
  · rw [genome_inst_Not]; omega
  · rw [genome_inst_Shift]; omega
  · rw [genome_inst_Add]; omega
  · rw [genome_inst_Sub]; omega
  · rw [genome_inst_Mult]; omega
  · rw [genome_inst_Div]; omega
  · rw [genome_inst_Mod]; omega
  · rw [genome_inst_Exp]; omega
  · rw [genome_inst_Sort]; omega
  · rw [genome_inst_TestLess]; omega
  · rw [genome_inst_TestEqu]; omega
  · rw [genome_inst_Nand]; omega
  · rw [genome_inst_Xor]; omega
  · rw [genome_inst_If]; omega
  · rw [genome_inst_IfNot]; omega
  · rw [genome_inst_Scope]; omega
  · rw [genome_inst_Continue]; omega
  · rw [genome_inst_Break]; omega
  · rw [genome_inst_StackPop]; omega
  · rw [genome_inst_StackDup]; omega
  · rw [genome_inst_StackSwap]; omega
  · rw [genome_inst_StackMove]; omega
  · rw [length_inst_CopyInst]
  · rw [genome_inst_Load]; omega
  · rw [genome_inst_Store]; omega
  · exact (genome_inst_DivideCell_le s).trans (Nat.le_succ _)
  · rw [genome_inst_HeadPos]; omega
  · rw [genome_inst_SetHead]; omega
  · rw [genome_inst_JumpHead]; omega
  · rw [genome_inst_OffsetHead]; omega

/-! The claims. -/

/-- Claim C1, counterexample: the claim says every byte is folded modulo
InstSet.size = 38 before dispatch and ProcessInst never faults; but on the
one-byte genome [38] a reset VM dispatches the raw byte 38 into the
`funs` array, whose entry 38 is a default-initialized (indeterminate)
function pointer — modelled as a fault — instead of executing the handler
of 38 mod 38 = 0 (a harmless nop). -/
theorem dispatch_fold_cex : processInst (resetVM [38]) = none := by decide

/-- Claim C1, amended: one cycle dispatches on the raw genome byte with no
modulo fold anywhere: a byte below InstSet.size = 38 never faults (nop ids
return immediately, registered ids run their handler), while a byte at or
beyond 38 reaches a default-initialized dispatch entry, modelled as a
fault. -/
theorem dispatch_raw_byte (s : VMState) :
    (s.readIP < instSetSize → (processInst s).isSome = true) ∧
    (instSetSize ≤ s.readIP → processInst s = none) := by
  have h38 : instSetSize = 38 := rfl
  have h32 : handlers.length = 32 := rfl
  constructor
  · intro h
    unfold processInst execute
    split
    · rfl
    · next hge =>
      rcases hk : handlers.get? (s.readIP - 6) with _ | f
      · have := List.get?_eq_none.mp hk
        omega
      · simp [hk]
  · intro h
    unfold processInst execute
    split
    · next hl => omega
    · have hlen : handlers.length ≤ s.readIP - 6 := by omega
      rw [List.get?_eq_none.mpr hlen]
      rfl

/-- Claim C1, witness for the amended theorem: a nop byte (0) yields a
successful cycle, the byte 38 yields a fault. -/
theorem dispatch_raw_byte_witness :
    (processInst (resetVM [0])).isSome = true ∧ processInst (resetVM [40]) = none :=
  ⟨(dispatch_raw_byte (resetVM [0])).1 (by decide),
   (dispatch_raw_byte (resetVM [40])).2 (by decide)⟩

/-- Claim C3, code evaluation at the failing input: on the genome
Break, Scope, Nop-A, one cycle from reset leaves IP at position 1 — the
Scope opcode itself — rather than past its trailing nops (position 3).
Inst_Break calls SkipNops while IP still points at the Scope opcode (which
is not a nop), so the call cannot advance, and the next cycle re-executes
that Scope. -/
theorem break_stops_at_scope :
    (processInst (resetVM [25, 23, 0])).map (fun t => t.ip) = some 1 ∧
    (processInst (resetVM [25, 23, 0])).map (fun t => t.readIP) = some 23 := by
  constructor
  · simp [processInst, resetVM, execute, handlers, VMState.readIP, VMState.readGenome,
      readGen, VMState.ip, VMState.advanceIP, VMState.setIP, VMState.setHead,
      inst_Break, VMState.getArg, breakScan, atScope, hasArgFrom, skipNopsPos, scopeId]
  · simp [processInst, resetVM, execute, handlers, VMState.readIP, VMState.readGenome,
      readGen, VMState.ip, VMState.advanceIP, VMState.setIP, VMState.setHead,
      inst_Break, VMState.getArg, breakScan, atScope, hasArgFrom, skipNopsPos, scopeId]

/-- Claim C4, counterexample: after one cycle on the genome "ga"
(Const, Nop-A) from reset, IP is 3, not 2: the stack-select GetArg of
Inst_Const reads past the end of the genome, obtains 0 (treated as Nop-A)
and advances IP a second time. -/
theorem const_cycle_ip_cex :
    ¬ (processInst (resetVM [6, 0])).map (fun t => t.ip) = some 2 := by decide

/-- Claim C4, amended: after one cycle on the genome "ga" from reset, stack
A holds exactly [1] (slot 0 holds 1, cursor at 1, all other slots 0), every
other stack is in its reset state, and IP = 3 (the byte at IP = 2 is past
the end, reads as Nop-A and is consumed by the stack-select GetArg). -/
theorem const_cycle :
    processInst (resetVM [6, 0]) =
      some ⟨[6, 0], [], List.replicate 64 0, [3, 0, 2, 0, 0, 0],
        [⟨1 :: List.replicate 15 0, 1⟩, stackReset, stackReset, stackReset,
         stackReset, stackReset], 0⟩ := by decide

/-- Claim C5: with IP in range of the genome, GetArg returns the byte at IP
and advances IP by exactly one when that byte is a nop id (below
NUM_NOPS = 6), and otherwise returns the default and leaves the whole state
(IP included) unchanged. -/
theorem getArg_contract (s : VMState) (d : Nat) (h : s.ip < s.genome.length) :
    (s.genome.getD s.ip 0 < 6 →
      s.getArg d = (s.genome.getD s.ip 0, { s with heads := s.heads.set 0 (s.ip + 1) })) ∧
    (6 ≤ s.genome.getD s.ip 0 → s.getArg d = (d, s)) := by
  have hr : s.readIP = s.genome.getD s.ip 0 := by
    unfold VMState.readIP VMState.readGenome readGen
    rw [if_pos h]
  constructor
  · intro hn
    unfold VMState.getArg
    rw [hr, if_pos hn]
    rfl
  · intro hn
    unfold VMState.getArg
    rw [hr, if_neg (by omega)]

/-- Claim C5, witness: on the one-byte genome [0] from reset, GetArg with
default 3 consumes the Nop-A byte, returns 0 and advances IP to 1. -/
theorem getArg_contract_witness :
    (resetVM [0]).getArg 3 =
      (List.getD (resetVM [0]).genome (resetVM [0]).ip 0,
        { resetVM [0] with heads := (resetVM [0]).heads.set 0 ((resetVM [0]).ip + 1) }) :=
  (getArg_contract (resetVM [0]) 3 (by decide)).1 (by decide)

/-- Claim C7, counterexample: from a reset VM on the 3-byte genome
DivideCell, Nop-B, Nop-C (initial length 3, within [1, 2048]), a single
cycle extracts the entire genome into the offspring buffer, leaving genome
length 0 — the claimed lower bound 1 ≤ |G| fails.  Likewise, from a reset
VM on a 2048-byte genome beginning with CopyInst, Nop-B, Nop-C, a single
cycle pushes a byte past the end, reaching length 2049 — no MAX_GENOME_SIZE
cap is enforced. -/
theorem genome_bounds_cex :
    ((resetVM [33, 1, 2]).genome.length = 3 ∧
      (processInst (resetVM [33, 1, 2])).map (fun t => t.genome.length) = some 0) ∧
    ((resetVM bigGenome).genome.length = 2048 ∧
      (processInst (resetVM bigGenome)).map (fun t => t.genome.length) = some 2049) := by
  have hlen : bigGenome.length = 2048 := by
    unfold bigGenome
    rw [List.length_cons, List.length_cons, List.length_cons, List.length_replicate]
  have hread : (resetVM bigGenome).readIP = 30 := by
    unfold VMState.readIP VMState.readGenome readGen
    rw [show (resetVM bigGenome).ip = 0 from rfl]
    rw [if_pos (by rw [show (resetVM bigGenome).genome = bigGenome from rfl, hlen]; norm_num)]
    rfl
  have hexec : processInst (resetVM bigGenome) =
      some (inst_CopyInst ((resetVM bigGenome).advanceIP)) := by
    unfold processInst execute
    rw [hread, if_neg (by norm_num)]
    rfl
  refine ⟨⟨by decide, by decide⟩, ⟨by exact hlen, ?_⟩⟩
  rw [hexec]
  simp only [Option.map_some']
  rw [length_inst_CopyInst, advanceIP_genome]
  rw [show (resetVM bigGenome).genome = bigGenome from rfl, hlen]

/-- Claim C7, amended: the code enforces no genome-size bounds; what holds
is that a single ProcessInst cycle grows the genome by at most one byte
(CopyInst inserts exactly one, with no cap; DivideCell only shrinks; every
other handler leaves the genome length unchanged). -/
theorem processInst_genome_growth (s t : VMState) (h : processInst s = some t) :
    t.genome.length ≤ s.genome.length + 1 := by
  unfold processInst execute at h
  split at h
  · cases h
    simp
  · rcases hk : handlers.get? (s.readIP - 6) with _ | f
    · rw [hk] at h
      cases h
    · rw [hk] at h
      simp only [Option.map_some'] at h
      cases h
      have hmem : f ∈ handlers := List.get?_mem hk
      have := handlers_genome_growth f hmem s.advanceIP
      simpa using this

/-- Claim C7, witness for the amended theorem: one nop cycle on the
one-byte genome [0]. -/
theorem processInst_genome_growth_witness :
    ((resetVM [0]).advanceIP).genome.length ≤ (resetVM [0]).genome.length + 1 :=
  processInst_genome_growth (resetVM [0]) ((resetVM [0]).advanceIP) (by decide)

/-- Claim C6: in Div and Mod, when the decoded divisor Y is 0 both pops
remain in effect and the only further change is the error counter bump (the
result state is exactly the post-pop state with error_count + 1, and the
decode-and-pop prefix touches neither genome, offspring, memory nor the
error counter); when Y is nonzero the error counter is unchanged and
X / Y (resp. X % Y, C++ truncating semantics) is pushed onto the stack
selected by the third GetArg. -/
theorem div_mod_by_zero (s : VMState) (xid : Nat) (x y : Int) (s4 : VMState)
    (hd : divmodDecode s = (xid, x, y, s4)) :
    (y = 0 →
      inst_Div s = s4.addError ∧ inst_Mod s = s4.addError ∧
      s4.genome = s.genome ∧ s4.offspring = s.offspring ∧ s4.memory = s.memory ∧
      s4.errorCount = s.errorCount) ∧
    (y ≠ 0 →
      (inst_Div s).errorCount = s.errorCount ∧ (inst_Mod s).errorCount = s.errorCount ∧
      inst_Div s = (s4.getArg xid).2.pushStack (s4.getArg xid).1 (wrap32 (x.tdiv y)) ∧
      inst_Mod s = (s4.getArg xid).2.pushStack (s4.getArg xid).1 (wrap32 (x.tmod y))) := by
  obtain ⟨hg, ho, hm, he⟩ := divmodDecode_frame hd
  constructor
  · intro h0
    refine ⟨?_, ?_, hg, ho, hm, he⟩
    · rw [inst_Div_eq hd]
      unfold divmodFinish
      rw [if_pos h0]
    · rw [inst_Mod_eq hd]
      unfold divmodFinish
      rw [if_pos h0]
  · intro hne
    have hdiv : inst_Div s =
        (s4.getArg xid).2.pushStack (s4.getArg xid).1 (wrap32 (x.tdiv y)) := by
      rw [inst_Div_eq hd]
      unfold divmodFinish
      rw [if_neg hne]
    have hmod : inst_Mod s =
        (s4.getArg xid).2.pushStack (s4.getArg xid).1 (wrap32 (x.tmod y)) := by
      rw [inst_Mod_eq hd]
      unfold divmodFinish
      rw [if_neg hne]
    refine ⟨?_, ?_, hdiv, hmod⟩
    · rw [hdiv, pushStack_errorCount, getArg_snd_errorCount, he]
    · rw [hmod, pushStack_errorCount, getArg_snd_errorCount, he]

/-- Claim C6, witness: on genome Div-arguments Nop-B, Nop-A from reset (both
pops hit reset stacks, so Y = 0), Div is exactly the post-pop state with the
error counter bumped. -/
theorem div_mod_by_zero_witness :
    inst_Div (resetVM [1, 0]) =
      VMState.addError ⟨[1, 0], [], List.replicate 64 0, [2, 0, 2, 0, 0, 0],
        [⟨List.replicate 16 0, 15⟩, ⟨List.replicate 16 0, 15⟩, stackReset,
         stackReset, stackReset, stackReset], 0⟩ :=
  ((div_mod_by_zero (resetVM [1, 0]) 1 0 0
      ⟨[1, 0], [], List.replicate 64 0, [2, 0, 2, 0, 0, 0],
        [⟨List.replicate 16 0, 15⟩, ⟨List.replicate 16 0, 15⟩, stackReset,
         stackReset, stackReset, stackReset], 0⟩ (by decide)).1 rfl).1

/-- Claim C10: when Div or Mod takes the divide-by-zero branch the third
GetArg is never performed, so the heads (IP included) are exactly those of
the post-pop state; concretely, on the genome Div, Nop-B, Nop-A, Nop-C a
zero divisor leaves IP = 3 where a nonzero divisor leaves IP = 4, the byte
at IP after the erroring cycle is the unconsumed trailing nop (id 2), and
the next cycle executes that nop: it does nothing but advance IP. -/
theorem divzero_skips_third_decode :
    (∀ (s : VMState) (xid : Nat) (x y : Int) (s4 : VMState),
        divmodDecode s = (xid, x, y, s4) → y = 0 →
        (inst_Div s).heads = s4.heads ∧ (inst_Mod s).heads = s4.heads) ∧
    (processInst divZeroState).map (fun t => t.ip) = some 3 ∧
    (processInst divNonzeroState).map (fun t => t.ip) = some 4 ∧
    (processInst divZeroState).map (fun t => t.readIP) = some 2 ∧
    (processInst divZeroState).bind processInst =
      (processInst divZeroState).map VMState.advanceIP := by
  refine ⟨?_, by decide, by decide, by decide, by decide⟩
  intro s xid x y s4 hd h0
  have hdiv : inst_Div s = s4.addError := by
    rw [inst_Div_eq hd]
    unfold divmodFinish
    rw [if_pos h0]
  have hmod : inst_Mod s = s4.addError := by
    rw [inst_Mod_eq hd]
    unfold divmodFinish
    rw [if_pos h0]
  exact ⟨by rw [hdiv, addError_heads], by rw [hmod, addError_heads]⟩

/-- Claim C10, witness: the erroring Div on genome Div-arguments Nop-B,
Nop-B leaves the heads exactly as the two pops left them (IP = 2, the
third decode never ran). -/
theorem divzero_skips_third_decode_witness :
    (inst_Div (resetVM [1, 1])).heads =
      VMState.heads ⟨[1, 1], [], List.replicate 64 0, [2, 0, 2, 0, 0, 0],
        [stackReset, ⟨List.replicate 16 0, 14⟩, stackReset, stackReset,
         stackReset, stackReset], 0⟩ :=
  (divzero_skips_third_decode.1 (resetVM [1, 1]) 1 0 0
      ⟨[1, 1], [], List.replicate 64 0, [2, 0, 2, 0, 0, 0],
        [stackReset, ⟨List.replicate 16 0, 14⟩, stackReset, stackReset,
         stackReset, stackReset], 0⟩ (by decide) rfl).1

/-- Claim C2: writing a and b for the head positions selected by the two
decodes of DivideCell, h1 = min a b for the position after the
swap-if-reversed, and h2 = min (max a b) |G| for the other position after
the clamp: when h1 < h2 (which forces h1 < |G| and h2 ≤ |G|), DivideCell
sets the offspring buffer to exactly G[h1..h2), leaves the residual genome
G[:h1] ++ G[h2:], sets the selected write-head slot to h1 and the selected
read-head slot to 0, and does not change the error counter; when instead
h1 ≥ |G| or h1 = h2, the error counter increments by one and genome and
offspring are unchanged. -/
theorem divideCell_spec (s : VMState) (i1 i2 a b h1 h2 : Nat)
    (hlen : s.heads.length = 6) (hi1 : i1 < 6) (hi2 : i2 < 6)
    (ha : a = s.headPos i1) (hb : b = s.headPos i2)
    (hh1 : h1 = min a b) (hh2 : h2 = min (max a b) s.genome.length) :
    (h1 < h2 →
      (divideCore i1 i2 s).offspring = (s.genome.drop h1).take (h2 - h1) ∧
      (divideCore i1 i2 s).genome = s.genome.take h1 ++ s.genome.drop h2 ∧
      (divideCore i1 i2 s).headPos i2 = h1 ∧
      (divideCore i1 i2 s).headPos i1 = 0 ∧
      (divideCore i1 i2 s).errorCount = s.errorCount) ∧
    (s.genome.length ≤ h1 ∨ h1 = h2 →
      (divideCore i1 i2 s).errorCount = s.errorCount + 1 ∧
      (divideCore i1 i2 s).genome = s.genome ∧
      (divideCore i1 i2 s).offspring = s.offspring) := by
  subst ha hb hh1 hh2
  by_cases hii : i1 = i2
  · subst hii
    constructor
    · intro hlt
      exfalso
      simp only [Nat.min_self, Nat.max_self] at hlt
      omega
    · intro hcond
      rw [divideCore_self]
      refine ⟨?_, ?_, ?_⟩ <;> (split <;> simp)
  · obtain ⟨e1, e2, eg, eo, em, es, ee, el⟩ := swapClamp_spec i1 i2 s hii hlen hi1 hi2
    have hcore : divideCore i1 i2 s = divideCheck i1 i2 (divideSwapClamp i1 i2 s) := rfl
    constructor
    · intro hlt
      have hcond : ¬((divideSwapClamp i1 i2 s).headPos i1 ≥
          (divideSwapClamp i1 i2 s).genome.length ∨
          (divideSwapClamp i1 i2 s).headPos i1 = (divideSwapClamp i1 i2 s).headPos i2) := by
        rw [e1, e2, eg]
        omega
      obtain ⟨o1, o2, o3, o4, o5⟩ :=
        divideCheck_ok i1 i2 (divideSwapClamp i1 i2 s) hii (by rw [el, hlen]) hi1 hi2 hcond
      refine ⟨?_, ?_, ?_, ?_, ?_⟩
      · rw [hcore, o1, e1, e2, eg]
      · rw [hcore, o2, e1, e2, eg]
        have hidx : min (s.headPos i1) (s.headPos i2) +
            (min (max (s.headPos i1) (s.headPos i2)) s.genome.length -
              min (s.headPos i1) (s.headPos i2)) =
            min (max (s.headPos i1) (s.headPos i2)) s.genome.length := by omega
        rw [hidx]
      · rw [hcore, o3, e1]
      · rw [hcore, o4]
      · rw [hcore, o5, ee]
    · intro hcond
      have hcond2 : (divideSwapClamp i1 i2 s).headPos i1 ≥
          (divideSwapClamp i1 i2 s).genome.length ∨
          (divideSwapClamp i1 i2 s).headPos i1 = (divideSwapClamp i1 i2 s).headPos i2 := by
        rw [e1, e2, eg]
        omega
      rw [hcore, divideCheck_err _ _ _ hcond2]
      exact ⟨by rw [addError_errorCount, ee], by rw [addError_genome, eg],
        by rw [addError_offspring, eo]⟩

/-- Claim C2, witness: on divideOkState (G_READ = 1, G_WRITE = 3, 3-byte
genome [9, 8, 7]) DivideCell extracts [8, 7], leaves [9], sets the
write slot to 1, the read slot to 0 and keeps the error counter. -/
theorem divideCell_spec_witness :
    (divideCore 1 2 divideOkState).offspring = (divideOkState.genome.drop 1).take (3 - 1) ∧
    (divideCore 1 2 divideOkState).genome =
      divideOkState.genome.take 1 ++ divideOkState.genome.drop 3 ∧
    (divideCore 1 2 divideOkState).headPos 2 = 1 ∧
    (divideCore 1 2 divideOkState).headPos 1 = 0 ∧
    (divideCore 1 2 divideOkState).errorCount = divideOkState.errorCount :=
  (divideCell_spec divideOkState 1 2 1 3 1 3 (by decide) (by decide) (by decide)
    (by decide) (by decide) (by decide) (by decide)).1 (by decide)

/-- Claim C9: on the error branch of DivideCell (an invalid geometry after
the two decodes), genome, offspring, stacks and memory are unchanged and
the error counter increments by one, but the two selected head slots keep
the swap-if-reversed and the clamp that ran before the validity check;
concretely, the erroring DivideCell on divideErrState (G_READ = 9,
G_WRITE = 4, |G| = 3) permanently moves G_READ to 4 and G_WRITE to 3. -/
theorem divideCell_error_frame :
    (∀ (s : VMState) (i1 i2 : Nat), s.heads.length = 6 → i1 < 6 → i2 < 6 →
      (s.genome.length ≤ min (s.headPos i1) (s.headPos i2) ∨
        min (s.headPos i1) (s.headPos i2) =
          min (max (s.headPos i1) (s.headPos i2)) s.genome.length) →
      (divideCore i1 i2 s).genome = s.genome ∧
      (divideCore i1 i2 s).offspring = s.offspring ∧
      (divideCore i1 i2 s).stackArr = s.stackArr ∧
      (divideCore i1 i2 s).memory = s.memory ∧
      (divideCore i1 i2 s).errorCount = s.errorCount + 1) ∧
    inst_DivideCell divideErrState =
      ⟨[33, 1, 2], [], List.replicate 64 0, [3, 4, 3, 0, 0, 0],
        List.replicate 6 stackReset, 1⟩ ∧
    (inst_DivideCell divideErrState).headPos 1 ≠ divideErrState.headPos 1 ∧
    (inst_DivideCell divideErrState).headPos 2 ≠ divideErrState.headPos 2 ∧
    (inst_DivideCell divideErrState).errorCount = divideErrState.errorCount + 1 := by
  refine ⟨?_, by decide, by decide, by decide, by decide⟩
  intro s i1 i2 hlen hi1 hi2 hcond
  by_cases hii : i1 = i2
  · subst hii
    rw [divideCore_self]
    refine ⟨?_, ?_, ?_, ?_, ?_⟩ <;> (split <;> simp)
  · obtain ⟨e1, e2, eg, eo, em, es, ee, el⟩ := swapClamp_spec i1 i2 s hii hlen hi1 hi2
    have hcond2 : (divideSwapClamp i1 i2 s).headPos i1 ≥
        (divideSwapClamp i1 i2 s).genome.length ∨
        (divideSwapClamp i1 i2 s).headPos i1 = (divideSwapClamp i1 i2 s).headPos i2 := by
      rw [e1, e2, eg]
      omega
    have hcore : divideCore i1 i2 s = divideCheck i1 i2 (divideSwapClamp i1 i2 s) := rfl
    rw [hcore, divideCheck_err _ _ _ hcond2]
    exact ⟨by rw [addError_genome, eg], by rw [addError_offspring, eo],
      by rw [addError_stackArr, es], by rw [addError_memory, em],
      by rw [addError_errorCount, ee]⟩

/-- Claim C9, witness: applying the frame part to the post-decode state of
the concrete erroring DivideCell. -/
theorem divideCell_error_frame_witness :
    (divideCore 1 2 divideErrPost).genome = divideErrPost.genome ∧
    (divideCore 1 2 divideErrPost).offspring = divideErrPost.offspring ∧
    (divideCore 1 2 divideErrPost).stackArr = divideErrPost.stackArr ∧
    (divideCore 1 2 divideErrPost).memory = divideErrPost.memory ∧
    (divideCore 1 2 divideErrPost).errorCount = divideErrPost.errorCount + 1 :=
  divideCell_error_frame.1 divideErrPost 1 2 (by decide) (by decide) (by decide) (by decide)

/-- A symbol assigned to one of the 38 canonical entries is found by the
GetID scan at its id, which is below `num_insts` and carries that symbol. -/
theorem getID_assigned {c : Char} (hc : c ∈ canonicalSymbols) :
    ∃ i, getID c = some i ∧ i < instSetSize ∧ symbolOfId i = c := by
  unfold canonicalSymbols at hc
  obtain ⟨j, hj, hsym⟩ := List.mem_map.mp hc
  have hsome : ((List.range instSetSize).find? (fun i => symbolOfId i == c)).isSome := by
    rw [List.find?_isSome]
    exact ⟨j, hj, by simp [hsym]⟩
  obtain ⟨i, hi⟩ := Option.isSome_iff_exists.mp hsome
  refine ⟨i, ?_, ?_, ?_⟩
  · unfold getID
    rw [hi]
  · have := List.mem_of_find?_eq_some hi
    simpa [List.mem_range] using this
  · have := List.find?_some hi
    simpa using this

/-- Claim C8: for every sequence drawn from the symbols assigned to the 38
entries of the canonical instruction set, ToSequence inverts BuildGenome. -/
theorem buildGenome_toSequence (seq : List Char) (h : ∀ c ∈ seq, c ∈ canonicalSymbols) :
    (buildGenome seq).map toSequence = some seq := by
  induction seq with
  | nil => rfl
  | cons c cs ih =>
    obtain ⟨i, hgid, hlt, hsym⟩ := getID_assigned (h c (by simp))
    have ihh := ih (fun x hx => h x (by simp [hx]))
    rcases hbs : buildGenome cs with _ | g
    · rw [hbs] at ihh
      simp at ihh
    · have hg : List.map getSymbol g = cs := by
        rw [hbs] at ihh
        simpa [toSequence] using ihh
      have hbuild : buildGenome (c :: cs) = some (i :: g) := by
        unfold buildGenome at hbs ⊢
        rw [List.mapM_cons, hgid, hbs]
        rfl
      rw [hbuild]
      simp only [Option.map_some']
      unfold toSequence
      simp only [List.map_cons]
      rw [show getSymbol i = c from by unfold getSymbol; rw [if_pos hlt, hsym], hg]

/-- Claim C8, witness: the two-symbol sequence "ga" round-trips through
BuildGenome (giving bytes [6, 0]) and ToSequence. -/
theorem buildGenome_toSequence_witness :
    (buildGenome ['g', 'a']).map toSequence = some ['g', 'a'] :=
  buildGenome_toSequence ['g', 'a'] (by decide)

end Avida
